import Mathlib

/-!
Shallow embedding of `sync_and_report.py`, a synchronization pipeline that
crawls a paginated image-metadata API, diffs the result against a persisted
manifest, downloads and normalizes new assets concurrently, archives the
successes, and saves the new manifest.

External collaborators (the HTTP service, the json module, the PIL image
codec, the zip encoder) are modelled at the granularity the program uses
them: a page request either fails (network error, non-success status,
JSON-decode failure) or yields items plus an optional next-page cursor; a
fetched binary either fails to download/decode or decodes to an image of a
given PIL mode; the manifest file either holds a JSON document or is
unparseable.
-/

namespace SyncReport

/-- One catalog item as the program uses it: the string key produced by
str of the id field, the optional url field, and the username field
(the program substitutes "unknown" when it is absent, so it is always a
string by the time it is used). -/
structure CatalogEntry where
  id : String
  url : Option String
  username : String
deriving DecidableEq

/-- A Python dict keyed by identifier, as an association list.  The dicts
built by the program (json.load of a saved manifest, and the dict
comprehension over the crawled items) have unique keys. -/
abbrev Catalog := List (String × CatalogEntry)

/-- JSON documents, at the granularity the manifest file needs. -/
inductive Json where
  | str (s : String)
  | num (n : Int)
  | obj (fields : List (String × Json))
  | arr (elems : List Json)
  | bool (b : Bool)
  | null

/-- Serialization of one catalog entry, as json.dump writes it. -/
def encodeEntry (e : CatalogEntry) : Json :=
  .obj [("id", .str e.id),
        ("url", match e.url with
                | some u => .str u
                | none => .null),
        ("username", .str e.username)]

/-- Parse one catalog entry back from its JSON form. -/
def decodeEntry : Json → Option CatalogEntry
  | .obj fields =>
    match fields.lookup "id", fields.lookup "url", fields.lookup "username" with
    | some (.str i), some (.str u), some (.str n) => some ⟨i, some u, n⟩
    | some (.str i), some .null, some (.str n) => some ⟨i, none, n⟩
    | _, _, _ => none
  | _ => none

/-- Parse the fields of the top-level JSON object into a catalog. -/
def decodeEntries : List (String × Json) → Option Catalog
  | [] => some []
  | p :: rest =>
    match decodeEntry p.2, decodeEntries rest with
    | some e, some c => some ((p.1, e) :: c)
    | _, _ => none

/-- Parse a JSON document as a manifest catalog: it must be an object whose
values all parse as entries (any other shape crashes the run when the
program calls .keys on it, which we fold into the corrupt case). -/
def decodeCatalog : Json → Option Catalog
  | .obj fields => decodeEntries fields
  | _ => none

/-- Serialization of a whole catalog, the expected on-disk manifest form. -/
def encodeCatalog (c : Catalog) : Json :=
  .obj (c.map (fun p => (p.1, encodeEntry p.2)))

/-- Contents of a file on disk: either a valid JSON document or bytes that
json.load rejects. -/
inductive FileData where
  | json (j : Json)
  | unparseable

/-- The error that aborts a run when the prior manifest cannot be read as a
catalog (json.JSONDecodeError escaping load_manifest, or the crash on a
wrong-shaped document). -/
inductive ManifestError where
  | corrupt
deriving DecidableEq

/-- Embedding of load_manifest (lines 101-107): a missing file is the
first-run case and yields the empty catalog; an existing file is passed to
json.load, whose failure propagates and aborts the run. -/
def load_manifest : Option FileData → Except ManifestError Catalog
  | none => .ok []
  | some .unparseable => .error .corrupt
  | some (.json j) =>
    match decodeCatalog j with
    | some c => .ok c
    | none => .error .corrupt

/-- Embedding of save_manifest (lines 109-112): json.dump of the catalog,
producing a parseable manifest file as the final state. -/
def save_manifest (data : Catalog) : FileData :=
  .json (encodeCatalog data)

/-- The successive states of the file at manifest_path while save_manifest
runs: the code opens the target path directly with mode w, which truncates
it in place, then json.dump streams the document into it.  So the target
passes through an intermediate state (empty or partially written, hence
unparseable) before reaching the complete serialized catalog. -/
def save_manifest_target_states (prev : Option FileData) (data : Catalog) :
    List (Option FileData) :=
  [prev, some .unparseable, some (save_manifest data)]

/-- Outcome of one page request of the crawler: failure covers a network
error, a non-success status (raise_for_status) and a malformed body
(response.json raising), all caught as RequestException; success carries
the items list and the optional metadata.nextPage cursor. -/
inductive PageResponse where
  | failure
  | success (items : List CatalogEntry) (nextPage : Option String)

/-- The while loop of fetch_all_image_metadata (lines 25-46), consuming one
server response per iteration: a failed request breaks out returning the
accumulator; an empty items list breaks out; otherwise the items are
appended and the loop continues exactly when a nextPage cursor is present. -/
def fetchLoop : List PageResponse → List CatalogEntry → List CatalogEntry
  | [], all_images => all_images
  | .failure :: _, all_images => all_images
  | .success items next :: rest, all_images =>
    if items.isEmpty then all_images
    else
      match next with
      | none => all_images ++ items
      | some _ => fetchLoop rest (all_images ++ items)

/-- Embedding of fetch_all_image_metadata (lines 18-49): run the page loop
starting from an empty accumulator. -/
def fetch_all_image_metadata (responses : List PageResponse) : List CatalogEntry :=
  fetchLoop responses []

/-- A successful page with a nonempty items list and a next cursor, the
shape under which the crawl keeps going. -/
def goodPage (p : List CatalogEntry × String) : PageResponse :=
  .success p.1 (some p.2)

/-- The key set of a catalog (set of dict keys, line 157 and line 170). -/
def catalogIds (c : Catalog) : Finset String :=
  (c.map Prod.fst).toFinset

/-- Line 173: identifiers in the current catalog but not the prior one. -/
def new_image_ids (old_catalog current : Catalog) : Finset String :=
  catalogIds current \ catalogIds old_catalog

/-- Line 174: identifiers in the prior catalog but not the current one. -/
def deleted_image_ids (old_catalog current : Catalog) : Finset String :=
  catalogIds old_catalog \ catalogIds current

/-- Line 176: the current-catalog entries whose identifier is newly added. -/
def new_images (old_catalog current : Catalog) : List CatalogEntry :=
  (current.filter (fun p => decide (p.1 ∈ new_image_ids old_catalog current))).map Prod.snd

/-- Line 177: the prior-catalog entries whose identifier disappeared. -/
def deleted_images_data (old_catalog current : Catalog) : List CatalogEntry :=
  (old_catalog.filter (fun p => decide (p.1 ∈ deleted_image_ids old_catalog current))).map Prod.snd

/-- Insert with dict semantics: a later binding for an existing key
replaces the earlier one, otherwise the key is appended. -/
def insertEntry (m : Catalog) (k : String) (e : CatalogEntry) : Catalog :=
  if m.any (fun p => p.1 = k) then
    m.map (fun p => if p.1 = k then (k, e) else p)
  else m ++ [(k, e)]

/-- Line 169: the dict comprehension keying each crawled item by the string
form of its id. -/
def buildMap (items : List CatalogEntry) : Catalog :=
  items.foldl (fun m e => insertEntry m e.id e) []

/-- PIL image modes the model distinguishes. -/
inductive ImageMode where
  | RGB | RGBA | L | LA | P | PA | CMYK
deriving DecidableEq

/-- Whether a PIL mode carries an alpha channel. -/
def hasAlpha : ImageMode → Bool
  | .RGBA | .LA | .PA => true
  | _ => false

/-- Modes the PIL JPEG encoder accepts; img.save with format jpeg raises
for any mode still carrying alpha (RGBA, LA, PA) and for palette mode. -/
def jpegWritable : ImageMode → Bool
  | .RGB | .L | .CMYK => true
  | _ => false

/-- Lines 69-70: only the exact mode RGBA is converted to RGB before
encoding; every other mode is left untouched. -/
def normalizeMode (m : ImageMode) : ImageMode :=
  if m = .RGBA then .RGB else m

/-- The fields download_and_convert_image reads from its item dict via
.get: id and url may be absent; username defaults to "unknown" so it is
always present as a string. -/
structure ImageInfo where
  id : Option String
  url : Option String
  username : String
deriving DecidableEq

/-- View a catalog entry (which always has an id by the time it is keyed)
as the dict the worker receives. -/
def toImageInfo (e : CatalogEntry) : ImageInfo :=
  ⟨some e.id, e.url, e.username⟩

/-- Outcome of one asset-processing unit: skipped (incomplete info, before
the try block), saved (the JPEG file written, with the mode handed to the
encoder and the quality used), or failed (any exception in the try block:
download error, decode error, or the JPEG encoder rejecting the mode). -/
inductive DownloadResult where
  | skipped
  | saved (filename : String) (mode : ImageMode) (quality : Nat)
  | failed
deriving DecidableEq

/-- Embedding of download_and_convert_image (lines 51-84), threading the
shared progress counter explicitly: entries without id or url return
before the try block without touching the counter; both the success path
and the exception path increment the counter exactly once (each increment
happens under progress_lock, so modelling it as an atomic state update is
faithful).  The fetched argument is the external world: none when the
download or decode raises, otherwise the decoded image mode. -/
def download_and_convert_image (image_info : ImageInfo) (fetched : Option ImageMode)
    (jpeg_quality : Nat) (progress : Nat) : Nat × DownloadResult :=
  match image_info.id, image_info.url with
  | some image_id, some _ =>
    (match fetched with
     | none => (progress + 1, .failed)
     | some mode =>
       let converted := normalizeMode mode
       if jpegWritable converted then
         (progress + 1,
          .saved (image_info.username ++ "_" ++ image_id ++ ".jpeg") converted jpeg_quality)
       else (progress + 1, .failed))
  | _, _ => (progress, .skipped)

/-- The pool phase (lines 195-208): every unit runs exactly once; since
each counter update is a single atomic increment under progress_lock, any
interleaving of the workers is a permutation of this sequential fold, and
the final counter does not depend on the order (proved below). -/
def runPool (units : List (ImageInfo × Option ImageMode)) (jpeg_quality : Nat)
    (progress : Nat) : Nat × List DownloadResult :=
  match units with
  | [] => (progress, [])
  | u :: rest =>
    let step := download_and_convert_image u.1 u.2 jpeg_quality progress
    let restRun := runPool rest jpeg_quality step.1
    (restRun.1, step.2 :: restRun.2)

/-- Recognizer for a saved outcome, yielding the output filename. -/
def savedName : DownloadResult → Option String
  | .saved f _ _ => some f
  | _ => none

/-- Boolean recognizers for the three outcome kinds. -/
def isSaved : DownloadResult → Bool
  | .saved _ _ _ => true
  | _ => false

def isFailed : DownloadResult → Bool
  | .failed => true
  | _ => false

def isSkipped : DownloadResult → Bool
  | .skipped => true
  | _ => false

/-- Lines 198-206: the filenames collected for the units whose future
returned None, i.e. exactly the saved outcomes. -/
def downloaded_filenames (results : List DownloadResult) : List String :=
  results.filterMap savedName

/-- Embedding of create_zip_archive (lines 86-99): the archive holds
exactly the listed files that exist in the working area; a listed file
that is absent is skipped, never an error. -/
def create_zip_archive (source_dir_files : List String) (files_to_zip : List String) :
    List String :=
  files_to_zip.filter (fun f => decide (f ∈ source_dir_files))

/-- Lines 210-213: an archive is produced only when the success list is
nonempty, and then holds the result of create_zip_archive. -/
def archiveStep (working_area files : List String) : Option (List String) :=
  if files.isEmpty then none else some (create_zip_archive working_area files)

/-- The three files generate_reports writes (lines 114-144). -/
def reportFileNames : List String :=
  ["summary.md", "new_images_ids.txt", "deleted_images_ids.txt"]

/-- Embedding of generate_reports as the list of report files it writes. -/
def generate_reports (_new_imgs _deleted_data : List CatalogEntry) : List String :=
  reportFileNames

/-- Observable outcome of one successful run of main. -/
structure RunOutput where
  added : List CatalogEntry
  deletedData : List CatalogEntry
  reportFiles : List String
  progressCount : Nat
  archive : Option (List String)
  savedManifest : Catalog
deriving DecidableEq

/-- The body of main after the manifest loaded successfully
(lines 159-222): crawl, key the items by id, diff, write reports only when
the diff is nonempty, run the download pool over the added entries, archive
the successes (the working area holds exactly the files the successful
units saved), and persist the current map as the new manifest. -/
def runAfterLoad (old_manifest : Catalog) (responses : List PageResponse)
    (fetchOracle : CatalogEntry → Option ImageMode) (jpeg_quality : Nat) : RunOutput :=
  let current_images_map := buildMap (fetch_all_image_metadata responses)
  let newImgs := new_images old_manifest current_images_map
  let deletedData := deleted_images_data old_manifest current_images_map
  let reportFiles :=
    if newImgs.isEmpty && deletedData.isEmpty then []
    else generate_reports newImgs deletedData
  let pool := runPool (newImgs.map (fun e => (toImageInfo e, fetchOracle e))) jpeg_quality 0
  let downloaded := downloaded_filenames pool.2
  { added := newImgs
    deletedData := deletedData
    reportFiles := reportFiles
    progressCount := pool.1
    archive := archiveStep downloaded downloaded
    savedManifest := current_images_map }

/-- Embedding of main (lines 146-224): load the manifest first; a corrupt
manifest aborts the run before anything is written; otherwise the run
proceeds and produces its outputs. -/
def main (manifestFile : Option FileData) (responses : List PageResponse)
    (fetchOracle : CatalogEntry → Option ImageMode) (jpeg_quality : Nat) :
    Except ManifestError RunOutput :=
  (load_manifest manifestFile).map
    (fun old_manifest => runAfterLoad old_manifest responses fetchOracle jpeg_quality)

/-- A sample entry used by the concrete witnesses. -/
def entryA : CatalogEntry := ⟨"1", some "https://img.example/1", "alice"⟩

/-- A second sample entry. -/
def entryB : CatalogEntry := ⟨"2", some "https://img.example/2", "alice"⟩

/-- A third sample entry. -/
def entryC : CatalogEntry := ⟨"3", some "https://img.example/3", "alice"⟩

/-- A 200-item first page, matching the spec scenario. -/
def page200 : List CatalogEntry := List.replicate 200 entryA

/-- A three-unit pool input whose middle unit fails to download. -/
def unitsDemo : List (ImageInfo × Option ImageMode) :=
  [(⟨some "1", some "https://img.example/1", "alice"⟩, some ImageMode.RGB),
   (⟨some "2", some "https://img.example/2", "alice"⟩, none),
   (⟨some "3", some "https://img.example/3", "alice"⟩, some ImageMode.RGB)]

/-- The observable outcome of a run against an empty server with no prior
manifest. -/
def emptyRun : RunOutput := ⟨[], [], [], 0, none, []⟩

/-! ## Helper lemmas -/

/-- The key of a catalog member is in the key set. -/
theorem fst_mem_catalogIds {c : Catalog} {p : String × CatalogEntry} (hp : p ∈ c) :
    p.1 ∈ catalogIds c := by
  simp only [catalogIds, List.mem_toFinset, List.mem_map]
  exact ⟨p, hp, rfl⟩

/-- Membership in the key set is witnessed by a catalog member. -/
theorem mem_catalogIds_iff {c : Catalog} {i : String} :
    i ∈ catalogIds c ↔ ∃ p ∈ c, p.1 = i := by
  simp [catalogIds, List.mem_toFinset, List.mem_map]

/-- Entry round trip through the JSON encoding. -/
theorem decodeEntry_encodeEntry (e : CatalogEntry) : decodeEntry (encodeEntry e) = some e := by
  rcases e with ⟨i, u, n⟩
  cases u <;> rfl

/-- Catalog-field round trip through the JSON encoding. -/
theorem decodeEntries_encode (c : Catalog) :
    decodeEntries (c.map (fun p => (p.1, encodeEntry p.2))) = some c := by
  induction c with
  | nil => rfl
  | cons p rest ih => simp [decodeEntries, decodeEntry_encodeEntry, ih]

/-! ## Claim theorems -/

/-- Claim C1: for every prior catalog P and current catalog C, added is
exactly the identifiers (and entries) in C but not P, removed exactly those
in P but not C, the two sets are disjoint, the diff of a catalog with
itself is empty, and an identifier present in both catalogs is neither
added nor removed regardless of payload. -/
theorem C1_diff_correct (P C : Catalog) :
    (∀ i, i ∈ new_image_ids P C ↔ i ∈ catalogIds C ∧ i ∉ catalogIds P) ∧
    (∀ i, i ∈ deleted_image_ids P C ↔ i ∈ catalogIds P ∧ i ∉ catalogIds C) ∧
    Disjoint (new_image_ids P C) (deleted_image_ids P C) ∧
    new_image_ids P P = ∅ ∧
    deleted_image_ids P P = ∅ ∧
    (∀ e, e ∈ new_images P C ↔ ∃ p, p ∈ C ∧ p.2 = e ∧ p.1 ∉ catalogIds P) ∧
    (∀ e, e ∈ deleted_images_data P C ↔ ∃ p, p ∈ P ∧ p.2 = e ∧ p.1 ∉ catalogIds C) ∧
    (∀ i, i ∈ catalogIds P → i ∈ catalogIds C →
       i ∉ new_image_ids P C ∧ i ∉ deleted_image_ids P C) := by
  refine ⟨?_, ?_, ?_, ?_, ?_, ?_, ?_, ?_⟩
  · intro i; simp [new_image_ids, Finset.mem_sdiff]
  · intro i; simp [deleted_image_ids, Finset.mem_sdiff]
  · exact disjoint_sdiff_sdiff
  · exact Finset.sdiff_self _
  · exact Finset.sdiff_self _
  · intro e
    simp only [new_images, List.mem_map, List.mem_filter, decide_eq_true_eq,
      new_image_ids, Finset.mem_sdiff]
    constructor
    · rintro ⟨p, ⟨hpC, _, hnP⟩, rfl⟩
      exact ⟨p, hpC, rfl, hnP⟩
    · rintro ⟨p, hpC, rfl, hnP⟩
      exact ⟨p, ⟨hpC, fst_mem_catalogIds hpC, hnP⟩, rfl⟩
  · intro e
    simp only [deleted_images_data, List.mem_map, List.mem_filter, decide_eq_true_eq,
      deleted_image_ids, Finset.mem_sdiff]
    constructor
    · rintro ⟨p, ⟨hpP, _, hnC⟩, rfl⟩
      exact ⟨p, hpP, rfl, hnC⟩
    · rintro ⟨p, hpP, rfl, hnC⟩
      exact ⟨p, ⟨hpP, fst_mem_catalogIds hpP, hnC⟩, rfl⟩
  · intro i hP hC
    simp [new_image_ids, deleted_image_ids, Finset.mem_sdiff, hP, hC]

/-- Concrete instance of C1: with prior keys {1} and current keys {1, 2},
identifier 2 is added and identifier 1 (present in both, with differing
payload in the current catalog) is neither added nor removed. -/
theorem C1_diff_correct_witness :
    "2" ∈ new_image_ids [("1", entryA)] [("1", entryB), ("2", entryB)] ∧
    "1" ∉ new_image_ids [("1", entryA)] [("1", entryB), ("2", entryB)] ∧
    "1" ∉ deleted_image_ids [("1", entryA)] [("1", entryB), ("2", entryB)] := by
  refine ⟨((C1_diff_correct [("1", entryA)] [("1", entryB), ("2", entryB)]).1 "2").mpr
      ⟨by decide, by decide⟩, ?_⟩
  have h := (C1_diff_correct [("1", entryA)] [("1", entryB), ("2", entryB)]).2.2.2.2.2.2.2
    "1" (by decide) (by decide)
  exact h

/-- Claim C6: saving a catalog and loading it back yields the original
catalog, identifiers and payloads included. -/
theorem C6_round_trip (data : Catalog) :
    load_manifest (some (save_manifest data)) = .ok data := by
  simp [load_manifest, save_manifest, decodeCatalog, encodeCatalog, decodeEntries_encode]

/-- Claim C4: loading with no file at the path yields the empty catalog
(first run, not an error); a file that parses as a serialized catalog loads
it; a file that cannot be parsed surfaces the corrupt-manifest error, and
the whole run aborts on it before producing any output. -/
theorem C4_load_manifest_policy (j : Json) (c : Catalog) (responses : List PageResponse)
    (oracle : CatalogEntry → Option ImageMode) (q : Nat) :
    load_manifest none = .ok ([] : Catalog) ∧
    (decodeCatalog j = some c → load_manifest (some (.json j)) = .ok c) ∧
    load_manifest (some .unparseable) = .error .corrupt ∧
    (decodeCatalog j = none → load_manifest (some (.json j)) = .error .corrupt) ∧
    main (some .unparseable) responses oracle q = .error .corrupt := by
  refine ⟨rfl, ?_, rfl, ?_, rfl⟩ <;> intro h <;> simp [load_manifest, h]

/-- Concrete instance of C4: a JSON document of the wrong shape surfaces
the corrupt error, and a properly serialized one-entry catalog loads. -/
theorem C4_load_manifest_witness :
    load_manifest (some (FileData.json (Json.num 3))) = .error ManifestError.corrupt ∧
    load_manifest (some (FileData.json (encodeCatalog [("1", entryA)]))) = .ok [("1", entryA)] :=
  ⟨(C4_load_manifest_policy (Json.num 3) [] [] (fun _ => none) 85).2.2.2.1 rfl,
   (C4_load_manifest_policy (encodeCatalog [("1", entryA)]) [("1", entryA)] [] (fun _ => none)
      85).2.1 (by rfl)⟩

/-- Claim C5 evaluated on the code: save_manifest opens the target path
directly in truncating write mode, so its middle intermediate state is an
unparseable file at the target path, which a crash at that point leaves
behind; loading it then surfaces the corrupt error.  The claimed
temporary-file-plus-atomic-rename behavior is absent from the source. -/
theorem C5_direct_overwrite_truncates :
    (save_manifest_target_states (some (save_manifest [("1", entryA)])) [("2", entryB)]).get
        ⟨1, by decide⟩ = some FileData.unparseable ∧
    load_manifest (some FileData.unparseable) = .error ManifestError.corrupt :=
  ⟨rfl, rfl⟩

/-- Running the page loop over good pages (nonempty items, fresh cursor)
followed by a failed request accumulates exactly the good pages' items. -/
theorem fetchLoop_goodPages (pages : List (List CatalogEntry × String))
    (rest : List PageResponse) (acc : List CatalogEntry)
    (h : ∀ p ∈ pages, p.1 ≠ []) :
    fetchLoop (pages.map goodPage ++ (.failure :: rest)) acc =
      acc ++ (pages.map Prod.fst).flatten := by
  induction pages generalizing acc with
  | nil => simp [fetchLoop]
  | cons p ps ih =>
    have hp : p.1 ≠ [] := h p (by simp)
    have hrest : ∀ r ∈ ps, r.1 ≠ [] := fun r hr => h r (by simp [hr])
    simp only [List.map_cons, List.cons_append, goodPage, fetchLoop, List.append_eq]
    rw [if_neg (by simpa [List.isEmpty_iff] using hp), ih (acc ++ p.1) hrest]
    simp

/-- Claim C3: when some page request fails, the crawl stops there and
returns the concatenation of the items of the pages that succeeded before
it, whatever responses would have come after; no error escapes (the loop
is a total function). -/
theorem C3_crawl_stops_at_failure (pages : List (List CatalogEntry × String))
    (rest : List PageResponse) (h : ∀ p ∈ pages, p.1 ≠ []) :
    fetch_all_image_metadata (pages.map goodPage ++ (.failure :: rest)) =
      (pages.map Prod.fst).flatten := by
  unfold fetch_all_image_metadata
  rw [fetchLoop_goodPages pages rest [] h]
  simp

/-- Concrete instance of C3, the spec scenario: the second page request
fails after a first page of 200 items, and the returned catalog has
exactly 200 entries. -/
theorem C3_crawl_witness :
    fetch_all_image_metadata ([(page200, "page2")].map goodPage ++ (.failure :: [])) = page200 ∧
    page200.length = 200 := by
  have h200 : page200.length = 200 := by
    show (List.replicate 200 entryA).length = 200
    rw [List.length_replicate]
  constructor
  · have h := C3_crawl_stops_at_failure [(page200, "page2")] []
      (by
        intro p hp
        simp only [List.mem_singleton] at hp
        subst hp
        intro hnil
        have hnil2 : page200 = [] := hnil
        rw [hnil2] at h200
        simp at h200)
    simpa using h
  · exact h200

/-- Running the page loop over n one-item pages that each carry a fresh
cursor consumes all n pages. -/
theorem fetchLoop_replicate (n : Nat) (acc : List CatalogEntry) :
    fetchLoop (List.replicate n (.success [entryA] (some "cursor"))) acc =
      acc ++ List.replicate n entryA := by
  induction n generalizing acc with
  | zero => simp [fetchLoop]
  | succ k ih =>
    simp only [List.replicate_succ, fetchLoop]
    rw [if_neg (by simp), ih (acc ++ [entryA])]
    simp [List.replicate_succ]

/-- Claim C8 evaluated on the code: the page loop has no iteration cap.
For every bound k there is a response sequence of nonempty pages with
fresh cursors that the loop follows for more than k iterations
(accumulating more than k items, one per page); against a server that
never stops supplying cursors the while loop never exits. -/
theorem C8_no_iteration_cap (k : Nat) :
    ∃ responses : List PageResponse,
      (∀ r ∈ responses, r = PageResponse.success [entryA] (some "cursor")) ∧
      k < (fetch_all_image_metadata responses).length := by
  refine ⟨List.replicate (k + 1) (.success [entryA] (some "cursor")), ?_, ?_⟩
  · intro r hr
    exact List.eq_of_mem_replicate hr
  · unfold fetch_all_image_metadata
    rw [fetchLoop_replicate]
    simp

/-- Concrete instance of C8: a three-page fresh-cursor stream is followed
past any cap of two iterations. -/
theorem C8_no_iteration_cap_witness :
    ∃ responses : List PageResponse,
      (∀ r ∈ responses, r = PageResponse.success [entryA] (some "cursor")) ∧
      2 < (fetch_all_image_metadata responses).length :=
  C8_no_iteration_cap 2

/-- The pool produces one outcome per unit. -/
theorem runPool_results_length (units : List (ImageInfo × Option ImageMode)) (q c : Nat) :
    (runPool units q c).2.length = units.length := by
  induction units generalizing c with
  | nil => rfl
  | cons u rest ih => simp [runPool, ih]

/-- The success list has one filename per saved outcome. -/
theorem downloaded_filenames_length (results : List DownloadResult) :
    (downloaded_filenames results).length = (results.filter isSaved).length := by
  induction results with
  | nil => rfl
  | cons r rest ih =>
    cases r <;>
      simpa [downloaded_filenames, savedName, isSaved, List.filterMap_cons, List.filter_cons]
        using ih

/-- Every outcome is saved, failed, or skipped, so the three counts
partition the result list. -/
theorem outcome_count (results : List DownloadResult) :
    (results.filter isSaved).length + (results.filter isFailed).length +
      (results.filter isSkipped).length = results.length := by
  induction results with
  | nil => rfl
  | cons r rest ih =>
    cases r <;> simp [List.filter_cons, isSaved, isFailed, isSkipped] <;> omega

/-- One unit's contribution to the shared progress counter: one when both
id and url are present (success or failure alike), zero otherwise. -/
theorem unit_progress (info : ImageInfo) (fetched : Option ImageMode) (q c : Nat) :
    (download_and_convert_image info fetched q c).1 =
      c + (if info.id.isSome && info.url.isSome then 1 else 0) := by
  rcases info with ⟨id, url, n⟩
  cases id <;> cases url <;> cases fetched <;>
    simp [download_and_convert_image]
  split <;> rfl

/-- The final counter of a pool phase counts the units carrying both an
identifier and a url. -/
theorem runPool_progress (units : List (ImageInfo × Option ImageMode)) (q c0 : Nat) :
    (runPool units q c0).1 =
      c0 + (units.filter (fun u => u.1.id.isSome && u.1.url.isSome)).length := by
  induction units generalizing c0 with
  | nil => simp [runPool]
  | cons u rest ih =>
    simp only [runPool, List.filter_cons]
    rw [ih, unit_progress]
    cases h : (u.1.id.isSome && u.1.url.isSome) <;> simp [h]
    omega

/-- Claim C2: with exactly one failed unit and no skipped unit among N,
the success list handed to the archiver has exactly N - 1 filenames, each
saved unit's filename is in it, and the archive contains exactly those
files; an empty success list produces no archive at all; and the archiver
skips (rather than fails on) any listed file absent from the working
area — its content is exactly the listed files that exist. -/
theorem C2_partial_failure_isolation (units : List (ImageInfo × Option ImageMode)) (q : Nat)
    (hfail : ((runPool units q 0).2.filter isFailed).length = 1)
    (hskip : ((runPool units q 0).2.filter isSkipped).length = 0)
    (hN : 2 ≤ units.length) :
    (downloaded_filenames (runPool units q 0).2).length = units.length - 1 ∧
    (∀ r ∈ (runPool units q 0).2, ∀ f m qq, r = DownloadResult.saved f m qq →
       f ∈ downloaded_filenames (runPool units q 0).2) ∧
    archiveStep (downloaded_filenames (runPool units q 0).2)
        (downloaded_filenames (runPool units q 0).2) =
      some (downloaded_filenames (runPool units q 0).2) ∧
    (∀ results working, downloaded_filenames results = [] →
       archiveStep working (downloaded_filenames results) = none) ∧
    (∀ existing files f, f ∈ create_zip_archive existing files ↔ f ∈ files ∧ f ∈ existing) := by
  have hlen : (downloaded_filenames (runPool units q 0).2).length = units.length - 1 := by
    have hc := outcome_count (runPool units q 0).2
    have hr := runPool_results_length units q 0
    rw [downloaded_filenames_length]
    omega
  refine ⟨hlen, ?_, ?_, ?_, ?_⟩
  · intro r hr f m qq hrf
    refine List.mem_filterMap.mpr ⟨r, hr, ?_⟩
    rw [hrf]
    rfl
  · have hne : downloaded_filenames (runPool units q 0).2 ≠ [] := by
      intro hnil
      rw [hnil] at hlen
      simp at hlen
      omega
    rw [archiveStep, if_neg (by simpa [List.isEmpty_iff] using hne)]
    congr 1
    exact List.filter_eq_self.mpr (fun a ha => by simpa using ha)
  · intro results working h
    rw [h]
    rfl
  · intro existing files f
    simp [create_zip_archive, List.mem_filter]

/-- Concrete instance of C2: of three units the middle one fails to
download; the other two filenames are archived. -/
theorem C2_partial_failure_witness :
    (downloaded_filenames (runPool unitsDemo 85 0).2).length = unitsDemo.length - 1 ∧
    archiveStep (downloaded_filenames (runPool unitsDemo 85 0).2)
        (downloaded_filenames (runPool unitsDemo 85 0).2) =
      some (downloaded_filenames (runPool unitsDemo 85 0).2) := by
  have h := C2_partial_failure_isolation unitsDemo 85 (by decide) (by decide) (by decide)
  exact ⟨h.1, h.2.2.1⟩

/-- Claim C9: the shared progress counter ends a pool phase equal to the
number of entries carrying both an identifier and a source url; each such
unit increments it exactly once whether it succeeds or fails; entries
missing either field are skipped without touching it; and the final count
is the same under any completion order of the workers. -/
theorem C9_progress_counter (units : List (ImageInfo × Option ImageMode)) (q c0 : Nat) :
    (runPool units q c0).1 =
      c0 + (units.filter (fun u => u.1.id.isSome && u.1.url.isSome)).length ∧
    (∀ info fetched c, info.id.isSome = true → info.url.isSome = true →
       (download_and_convert_image info fetched q c).1 = c + 1) ∧
    (∀ info fetched c, (info.id.isSome && info.url.isSome) = false →
       download_and_convert_image info fetched q c = (c, DownloadResult.skipped)) ∧
    (∀ units2, List.Perm units units2 →
       (runPool units q c0).1 = (runPool units2 q c0).1) := by
  refine ⟨runPool_progress units q c0, ?_, ?_, ?_⟩
  · intro info fetched c hid hurl
    rw [unit_progress, hid, hurl]
    rfl
  · intro info fetched c h
    rcases info with ⟨id, url, n⟩
    cases id <;> cases url <;> simp_all [download_and_convert_image]
  · intro units2 hperm
    rw [runPool_progress, runPool_progress]
    rw [(hperm.filter (fun u => u.1.id.isSome && u.1.url.isSome)).length_eq]

/-- Concrete instance of C9: two units with full info (one failing) and
one with a missing url leave the counter at two. -/
theorem C9_progress_counter_witness :
    (runPool [(⟨some "1", some "https://img.example/1", "alice"⟩, some ImageMode.RGB),
              (⟨some "2", none, "alice"⟩, some ImageMode.RGB),
              (⟨some "3", some "https://img.example/3", "alice"⟩, none)] 85 0).1 = 0 + 2 ∧
    (download_and_convert_image ⟨some "1", some "https://img.example/1", "alice"⟩ none 85 4).1 =
      4 + 1 := by
  constructor
  · exact (C9_progress_counter
      [(⟨some "1", some "https://img.example/1", "alice"⟩, some ImageMode.RGB),
       (⟨some "2", none, "alice"⟩, some ImageMode.RGB),
       (⟨some "3", some "https://img.example/3", "alice"⟩, none)] 85 0).1
  · exact (C9_progress_counter [] 85 0).2.1
      ⟨some "1", some "https://img.example/1", "alice"⟩ none 4 rfl rfl

/-- Claim C7 refuted at a concrete input: a decoded image of mode LA
carries an alpha channel, but the code checks only for the exact mode
RGBA, so the image is not flattened (its mode is unchanged by the
conversion step, still carrying alpha) and the unit fails at the JPEG
encoder instead of producing an encoded result. -/
theorem C7_alpha_counterexample :
    hasAlpha ImageMode.LA = true ∧
    normalizeMode ImageMode.LA = ImageMode.LA ∧
    hasAlpha (normalizeMode ImageMode.LA) = true ∧
    (download_and_convert_image ⟨some "7", some "https://img.example/7", "alice"⟩
        (some ImageMode.LA) 85 0).2 = DownloadResult.failed :=
  ⟨rfl, rfl, rfl, rfl⟩

/-- Claim C7 as amended: only the exact RGBA mode is converted to RGB
before encoding; a successfully processed image is encoded as JPEG at the
configured quality under the name built from the owner handle and the
identifier; every other mode is left unchanged by the conversion step, and
an image decoded in any other alpha-bearing mode is not flattened — its
unit fails at encoding. -/
theorem C7_normalization_amended (i u n : String) (q : Nat) :
    (download_and_convert_image ⟨some i, some u, n⟩ (some ImageMode.RGBA) q 0).2 =
      DownloadResult.saved (n ++ "_" ++ i ++ ".jpeg") ImageMode.RGB q ∧
    (download_and_convert_image ⟨some i, some u, n⟩ (some ImageMode.RGB) q 0).2 =
      DownloadResult.saved (n ++ "_" ++ i ++ ".jpeg") ImageMode.RGB q ∧
    (∀ m, m ≠ ImageMode.RGBA → normalizeMode m = m) ∧
    (∀ m, hasAlpha m = true → m ≠ ImageMode.RGBA →
       (download_and_convert_image ⟨some i, some u, n⟩ (some m) q 0).2 =
         DownloadResult.failed) := by
  refine ⟨rfl, rfl, ?_, ?_⟩
  · intro m hm
    simp [normalizeMode, hm]
  · intro m ha hm
    cases m <;> simp_all [download_and_convert_image, normalizeMode, jpegWritable, hasAlpha]

/-- Concrete instance of the amended C7: an RGBA image is converted and
saved under the derived name at the configured quality; a PA image is not
flattened and fails. -/
theorem C7_normalization_witness :
    (download_and_convert_image ⟨some "7", some "https://img.example/7", "alice"⟩
        (some ImageMode.RGBA) 85 0).2 =
      DownloadResult.saved "alice_7.jpeg" ImageMode.RGB 85 ∧
    (download_and_convert_image ⟨some "7", some "https://img.example/7", "alice"⟩
        (some ImageMode.PA) 85 0).2 = DownloadResult.failed := by
  constructor
  · have h := (C7_normalization_amended "7" "https://img.example/7" "alice" 85).1
    simpa using h
  · exact (C7_normalization_amended "7" "https://img.example/7" "alice" 85).2.2.2
      ImageMode.PA rfl (by decide)

/-- A key-filtered entry list is empty exactly when the key set is, for a
key set drawn from the catalog itself. -/
theorem filtered_entries_nil_iff (c : Catalog) (s : Finset String) (hsub : s ⊆ catalogIds c) :
    (c.filter (fun p => decide (p.1 ∈ s))).map Prod.snd = [] ↔ s = ∅ := by
  rw [List.map_eq_nil_iff, List.filter_eq_nil_iff]
  constructor
  · intro h
    apply Finset.eq_empty_iff_forall_not_mem.mpr
    intro i hi
    obtain ⟨p, hp, rfl⟩ := mem_catalogIds_iff.mp (hsub hi)
    exact h p hp (by simpa using hi)
  · intro h p hp
    simp [h]

/-- The added-entries list is empty exactly when the added key set is. -/
theorem new_images_nil_iff (old_catalog current : Catalog) :
    new_images old_catalog current = [] ↔ new_image_ids old_catalog current = ∅ :=
  filtered_entries_nil_iff current _ Finset.sdiff_subset

/-- The removed-entries list is empty exactly when the removed key set is. -/
theorem deleted_images_nil_iff (old_catalog current : Catalog) :
    deleted_images_data old_catalog current = [] ↔
      deleted_image_ids old_catalog current = ∅ :=
  filtered_entries_nil_iff old_catalog _ Finset.sdiff_subset

/-- Claim C10: a successful run writes the report files exactly when the
diff is non-empty; when both the added and the removed key sets are empty
the report step writes nothing, and otherwise it writes precisely the
narrative summary and the two identifier lists. -/
theorem C10_reports_iff_diff (manifestFile : Option FileData) (responses : List PageResponse)
    (oracle : CatalogEntry → Option ImageMode) (q : Nat) (out : RunOutput)
    (old_manifest : Catalog)
    (hload : load_manifest manifestFile = .ok old_manifest)
    (hrun : main manifestFile responses oracle q = .ok out) :
    ((new_image_ids old_manifest (buildMap (fetch_all_image_metadata responses)) = ∅ ∧
      deleted_image_ids old_manifest (buildMap (fetch_all_image_metadata responses)) = ∅) ↔
      out.reportFiles = []) ∧
    (out.reportFiles = [] ∨ out.reportFiles = reportFileNames) := by
  unfold main at hrun
  rw [hload] at hrun
  simp only [Except.map] at hrun
  injection hrun with hout
  subst hout
  have hrf : (runAfterLoad old_manifest responses oracle q).reportFiles =
      if (new_images old_manifest (buildMap (fetch_all_image_metadata responses))).isEmpty &&
         (deleted_images_data old_manifest
           (buildMap (fetch_all_image_metadata responses))).isEmpty
      then [] else reportFileNames := rfl
  rw [hrf]
  cases hb : ((new_images old_manifest (buildMap (fetch_all_image_metadata responses))).isEmpty &&
      (deleted_images_data old_manifest
        (buildMap (fetch_all_image_metadata responses))).isEmpty) with
  | true =>
    rw [if_pos rfl]
    rw [Bool.and_eq_true] at hb
    refine ⟨⟨fun _ => rfl, fun _ => ?_⟩, Or.inl rfl⟩
    exact ⟨(new_images_nil_iff _ _).mp (List.isEmpty_iff.mp hb.1),
      (deleted_images_nil_iff _ _).mp (List.isEmpty_iff.mp hb.2)⟩
  | false =>
    rw [if_neg (by simp)]
    have hnames : reportFileNames ≠ [] := by simp [reportFileNames]
    refine ⟨⟨?_, fun h => absurd h hnames⟩, Or.inr rfl⟩
    intro hids
    exfalso
    have h1 : (new_images old_manifest
        (buildMap (fetch_all_image_metadata responses))).isEmpty = true :=
      List.isEmpty_iff.mpr ((new_images_nil_iff _ _).mpr hids.1)
    have h2 : (deleted_images_data old_manifest
        (buildMap (fetch_all_image_metadata responses))).isEmpty = true :=
      List.isEmpty_iff.mpr ((deleted_images_nil_iff _ _).mpr hids.2)
    rw [h1, h2] at hb
    simp at hb

/-- Concrete instance of C10: against an empty server with no prior
manifest the diff is empty and no report file is written. -/
theorem C10_reports_witness :
    ((new_image_ids [] (buildMap (fetch_all_image_metadata [])) = ∅ ∧
      deleted_image_ids [] (buildMap (fetch_all_image_metadata [])) = ∅) ↔
      emptyRun.reportFiles = []) ∧
    (emptyRun.reportFiles = [] ∨ emptyRun.reportFiles = reportFileNames) :=
  C10_reports_iff_diff none [] (fun _ => none) 0 emptyRun [] rfl rfl

end SyncReport
